import Mathlib

/-!
Verification of the grant-writing Lambda pipeline (`lambda_function.py`, with
`grant_french_english.py` as a near-identical script variant).

Modelling conventions, used throughout:

* A Python `str` is modelled as `List Char`.
* Python `str.strip()` is `pyStrip`; Python whitespace is restricted to the
  ASCII whitespace characters (tab, newline, vertical tab, form feed,
  carriage return, space), which covers every character appearing in the
  program's own literals.
* Python `str.replace(pat, "")` (leftmost, non-overlapping deletion of every
  occurrence) is `removeAll`.
* Python `s.split("\n", 1)` is modelled through `afterFirstNl`, which returns
  the text after the first newline when one exists.
* The external collaborators (the `langdetect.detect` call and the Bedrock
  `invoke_model` call) are oracles: `detect` is a function from the examined
  text to a `DetectOutcome`, and the outcome of the single model invocation a
  request performs is an `InvokeOutcome` parameter.
-/

/-- Python `str.isspace` / `str.strip` whitespace test, restricted to the six
ASCII whitespace characters. -/
def isPySpace (c : Char) : Bool :=
  c == ' ' || c == '\t' || c == '\n' || c == '\r' ||
    c == Char.ofNat 11 || c == Char.ofNat 12

/-- Python `s.strip()`: remove leading and trailing whitespace. -/
def pyStrip (s : List Char) : List Char :=
  ((s.dropWhile isPySpace).reverse.dropWhile isPySpace).reverse

/-- Prefix test: `leadsWith p s` is true when `p` is an initial segment of `s`
(the prefix test used by `removeAll`). -/
def leadsWith : List Char → List Char → Bool
  | [], _ => true
  | _ :: _, [] => false
  | a :: as, b :: bs => a == b && leadsWith as bs

/-- Fuel-driven worker for `removeAll`; the fuel is only there to make the
recursion structural, `removeAll` always supplies enough. -/
def removeAllF (p : List Char) : Nat → List Char → List Char
  | _, [] => []
  | 0, s => s
  | Nat.succ n, c :: cs =>
      if !p.isEmpty && leadsWith p (c :: cs) then
        removeAllF p n (List.drop p.length (c :: cs))
      else
        c :: removeAllF p n cs

/-- Python `s.replace(p, "")`: delete every occurrence of `p` in `s`,
scanning left to right, non-overlapping. -/
def removeAll (p s : List Char) : List Char :=
  removeAllF p s.length s

/-- The text after the first `'\n'` of `s`, if `s` contains one.
`s.split("\n", 1)` returns two parts exactly when this is `some`. -/
def afterFirstNl : List Char → Option (List Char)
  | [] => Option.none
  | c :: cs => if c = '\n' then Option.some cs else afterFirstNl cs

/-- Function `clean_response` from `lambda_function.py` lines 59-70 (identical in
`grant_french_english.py` lines 71-89): drop the first line when a newline
exists (stripping the remainder) else strip the whole text, then delete
`"Response:"` and strip, then delete `"**Response**:"` and strip. -/
def clean_response (response_text : List Char) : List Char :=
  let res :=
    match afterFirstNl response_text with
    | Option.some rest => pyStrip rest
    | Option.none => pyStrip response_text
  pyStrip (removeAll ("**Response**:".toList)
    (pyStrip (removeAll ("Response:".toList) res)))

/-- Reference normalizer transcribed from the specification's wording
(spec §4.3 / claim C1): split on the first newline keeping the text after
it when a newline exists (whole text stripped otherwise), then delete every
occurrence of `"Response:"` and of `"**Response**:"` in that order, stripping
surrounding whitespace after each deletion. -/
def clean_response_spec (raw_text : List Char) : List Char :=
  let kept :=
    match afterFirstNl raw_text with
    | Option.some rest => rest
    | Option.none => pyStrip raw_text
  pyStrip (removeAll ("**Response**:".toList)
    (pyStrip (removeAll ("Response:".toList) kept)))

/-- Substring test: `containsSub needle hay` decides whether `needle` occurs as a contiguous
segment of `hay`. -/
def containsSub (needle : List Char) : List Char → Bool
  | [] => needle.isEmpty
  | c :: t => leadsWith needle (c :: t) || containsSub needle t

/-- Python repr of a string as rendered inside `str(list_of_strings)`
(escaping inside the element is not modelled). -/
def pyReprStr (s : List Char) : List Char :=
  ("\x27".toList) ++ s ++ ("\x27".toList)

/-- Python `str(xs)` for a list of strings: `['a', 'b']` — elements verbatim,
in order, separated by `", "`. -/
def pyStrOfList (xs : List (List Char)) : List Char :=
  ("[".toList) ++ List.intercalate (", ".toList) (xs.map pyReprStr) ++ ("]".toList)

/-- Python's `x or placeholder` for the `options` value (a list of strings or
`None`): falsy (`None` or `[]`) yields the placeholder, otherwise the
f-string renders `str(options)`. -/
def pyOrDefault (options : Option (List (List Char))) (placeholder : List Char) : List Char :=
  match options with
  | Option.none => placeholder
  | Option.some xs => if xs.isEmpty then placeholder else pyStrOfList xs

/-- F-string rendering of a possibly-absent string value: `None` renders as
`"None"`. -/
def pyStrOfNoneStr : Option (List Char) → List Char
  | Option.none => "None".toList
  | Option.some s => s

/-! Literal chunks of the two f-string templates of `generate_prompt`
(`lambda_function.py` lines 73-115), between the interpolation holes. -/

def enChunk1 : List Char :=
  ("\n        You are an expert at generating precise, professional, and compelling answers to grant application questions.\n\n        **Instructions**:\n        - Use the provided **User Data** and **Options** (if any).\n        - Respond in a professional and concise format.\n\n        **Question**:\n        ").toList

def enChunk2 : List Char := ("\n\n        **Options**:\n        ").toList

def enChunk3 : List Char := ("\n\n        **User Data**:\n        ").toList

def enChunk4 : List Char := ("\n\n        **Response**:\n        ").toList

def frChunk1 : List Char :=
  ("\n        Vous êtes un expert en rédaction de réponses précises, professionnelles et convaincantes pour les demandes de subventions.\n\n        **Instructions** :\n        - Utilisez les **Données Utilisateur** et les **Options** (le cas échéant).\n        - Répondez de manière professionnelle et concise.\n\n        **Question** :\n        ").toList

def frChunk2 : List Char := ("\n\n        **Options** :\n        ").toList

def frChunk3 : List Char := ("\n\n        **Données Utilisateur** :\n        ").toList

def frChunk4 : List Char := ("\n\n        **Réponse** :\n        ").toList

/-- Function `generate_prompt` from `lambda_function.py` lines 73-115.  `user_data` is
passed as its `json.dumps(user_data, indent=4)` rendering (the function only
ever embeds that rendering).  A language other than `"en"`/`"fr"` falls off
the end of the Python function, i.e. returns `None`: modelled as
`Option.none`. -/
def generate_prompt (language question user_data : List Char)
    (options : Option (List (List Char))) : Option (List Char) :=
  if language = ("en".toList) then
    Option.some (enChunk1 ++ question ++ enChunk2
      ++ pyOrDefault options ("Not provided".toList)
      ++ enChunk3 ++ user_data ++ enChunk4)
  else if language = ("fr".toList) then
    Option.some (frChunk1 ++ question ++ frChunk2
      ++ pyOrDefault options ("Non fourni".toList)
      ++ frChunk3 ++ user_data ++ frChunk4)
  else
    Option.none

/-! Literal chunks of the `rewrite_section` f-string
(`lambda_function.py` lines 118-142). -/

def rwChunk1 : List Char :=
  ("\n    The user provided the following feedback to improve the previous response:\n    \"").toList

def rwChunk2 : List Char := ("\"\n\n    **Original Question**:\n    ").toList

def rwChunk3 : List Char := ("\n\n    **Original Response**:\n    ").toList

def rwChunk4 : List Char :=
  ("\n\n    Use this feedback to refine the response while adhering to the original requirements.\n\n    **User Data**:\n    ").toList

def rwChunk5 : List Char := ("\n\n    **Options**:\n    ").toList

def rwChunk6 : List Char := ("\n\n    **Improved Response**:\n    ").toList

/-- Function `rewrite_section` from `lambda_function.py` lines 118-142; `user_data`
again stands for its `json.dumps(·, indent=4)` rendering. -/
def rewrite_section (previous_response feedback question user_data : List Char)
    (options : Option (List (List Char))) : List Char :=
  rwChunk1 ++ feedback ++ rwChunk2 ++ question ++ rwChunk3 ++ previous_response
    ++ rwChunk4 ++ user_data ++ rwChunk5 ++ pyOrDefault options ("Not provided".toList)
    ++ rwChunk6

/-- Outcome of one call to the external statistical detector
`langdetect.detect`: it either raises or returns some language code. -/
inductive DetectOutcome
  | raises
  | ok (code : List Char)
deriving DecidableEq

/-- Function `detect_language` from `lambda_function.py` lines 30-41.  The external
detector is the oracle `detect`.  In the source, a detected code outside
`["en", "fr"]` raises a `ValueError` that the function's own
`except Exception` catches, so both that case and a detector failure return
`"en"`; the function itself never raises (it is total here). -/
def detect_language (detect : Option (List Char) → DetectOutcome)
    (text : Option (List Char)) : List Char :=
  match detect text with
  | DetectOutcome.raises => "en".toList
  | DetectOutcome.ok code =>
      if code = ("en".toList) ∨ code = ("fr".toList) then code else "en".toList

/-- Outcome of the single `generate_text` (Bedrock `invoke_model`) call a
request performs: success carries `response.get("generation", "")`, a
`botocore` `ClientError` carries `err.response["Error"]["Message"]`, and any
other exception carries its text. -/
inductive InvokeOutcome
  | ok (generation : List Char)
  | clientError (message : List Char)
  | raises (text : List Char)
deriving DecidableEq

/-- A Python return value of the orchestration: a string or `None`. -/
inductive PyRet
  | str (s : List Char)
  | none
deriving DecidableEq

/-- Observable result of one orchestration run: the returned value, whether
the inference client was invoked, and the error log line emitted by the
`except` handlers (if any). -/
structure OrchOutput where
  ret : PyRet
  invokedModel : Bool
  errorLog : Option (List Char)
deriving DecidableEq

/-- The `try: generate_text ... clean_response ... except` block of
`integrate_document_content_with_grant_writing`
(`lambda_function.py` lines 170-180). -/
def invokeAndClean (inv : InvokeOutcome) : OrchOutput :=
  match inv with
  | InvokeOutcome.ok generation =>
      OrchOutput.mk (PyRet.str (clean_response generation)) true Option.none
  | InvokeOutcome.clientError message =>
      OrchOutput.mk PyRet.none true
        (Option.some (("A client error occurred: ".toList) ++ message))
  | InvokeOutcome.raises text =>
      OrchOutput.mk PyRet.none true
        (Option.some (("Unexpected error: ".toList) ++ text))

/-- Python truthiness of an optional string: `None` and `""` are falsy. -/
def truthy : Option (List Char) → Bool
  | Option.none => false
  | Option.some s => !s.isEmpty

/-- The fixed message of the invalid-action branch
(`lambda_function.py` line 158). -/
def invalidActionMsg : List Char :=
  ("Invalid action or missing feedback for regeneration.").toList

/-- Function `integrate_document_content_with_grant_writing` from
`lambda_function.py` lines 145-180.  `detect` is the language-detector
oracle, `inv` the outcome of the model invocation this request would
perform. -/
def integrate_document_content_with_grant_writing
    (detect : Option (List Char) → DetectOutcome) (inv : InvokeOutcome)
    (action : List Char) (question : Option (List Char)) (user_data : List Char)
    (options : Option (List (List Char)))
    (feedback : Option (List Char)) (previous_response : Option (List Char)) :
    OrchOutput :=
  let language := detect_language detect question
  if action = ("generate".toList) then
    let _prompt := generate_prompt language (pyStrOfNoneStr question) user_data options
    invokeAndClean inv
  else if action = ("regenerate".toList) ∧ truthy feedback = true
      ∧ truthy previous_response = true then
    let _prompt := rewrite_section (pyStrOfNoneStr previous_response)
      (pyStrOfNoneStr feedback) (pyStrOfNoneStr question) user_data options
    invokeAndClean inv
  else
    OrchOutput.mk (PyRet.str invalidActionMsg) false Option.none

/-- The fields `lambda_handler` reads off the request mapping with `.get`;
`none` models an absent key.  `user_data` again stands for the
`json.dumps(·, indent=4)` rendering used when it reaches a template
(`"null"` when the key is absent). -/
structure Event where
  action : Option (List Char)
  question : Option (List Char)
  user_data : List Char
  options : Option (List (List Char))
  feedback : Option (List Char)
  previous_response : Option (List Char)
deriving DecidableEq

/-- The `"body"` value of an incoming event, as `lambda_handler` observes it:
falsy (skip parsing), truthy and parsing to an object with the given fields,
or truthy and not valid JSON (`json.loads` raises). -/
inductive BodyField
  | falsy
  | valid (e : Event)
  | invalid
deriving DecidableEq

/-- An incoming Lambda event: an optional `"body"` entry plus the fields read
directly off the event when `"body"` is absent or falsy. -/
structure RawEvent where
  body : Option BodyField
  fields : Event
deriving DecidableEq

/-- The `{statusCode, body}` envelope returned by `lambda_handler`; `body` is
the `json.dumps` rendering of the orchestration result. -/
structure Response where
  statusCode : Nat
  body : List Char
deriving DecidableEq

/-- Rendering `json.dumps` of the orchestration result: a string is quoted (escaping
not modelled), `None` renders as `null`. -/
def pyDumpsRet : PyRet → List Char
  | PyRet.str s => ("\x22".toList) ++ s ++ ("\x22".toList)
  | PyRet.none => "null".toList

/-- The event object whose fields `lambda_handler` ends up reading: the
parsed body when a truthy valid body is present, the event itself
otherwise. -/
def eventUsed (ev : RawEvent) : Event :=
  match ev.body with
  | Option.some (BodyField.valid e) => e
  | _ => ev.fields

/-- Lines 190-201 of `lambda_function.py`: extract the fields (with the
`"generate"` default for `action`), orchestrate, wrap in the envelope.
The second component records whether the inference client was invoked.
`fetch_user_data` exists in the source but is never called from
`lambda_handler`, so no user-data fetch appears here. -/
def handlerCore (detect : Option (List Char) → DetectOutcome)
    (inv : InvokeOutcome) (e : Event) : Response × Bool :=
  let action := e.action.getD ("generate".toList)
  let out := integrate_document_content_with_grant_writing detect inv action
    e.question e.user_data e.options e.feedback e.previous_response
  (Response.mk 200 (pyDumpsRet out.ret), out.invokedModel)

/-- Function `lambda_handler` from `lambda_function.py` lines 183-201.  When the event
has a truthy `"body"` that is not valid JSON, the uncaught `json.loads`
exception propagates: `Except.error ()`. -/
def lambda_handler (detect : Option (List Char) → DetectOutcome)
    (inv : InvokeOutcome) (ev : RawEvent) : Except Unit (Response × Bool) :=
  match ev.body with
  | Option.some BodyField.invalid => Except.error ()
  | Option.some (BodyField.valid e) => Except.ok (handlerCore detect inv e)
  | _ => Except.ok (handlerCore detect inv ev.fields)

/-! ### Helper lemmas about the string primitives -/

/-- Every character of `w` is whitespace. -/
@[reducible] def allSpace (w : List Char) : Prop := ∀ c ∈ w, isPySpace c = true

/-- No character of `p` is whitespace. -/
@[reducible] def noSpace (p : List Char) : Prop := ∀ c ∈ p, isPySpace c = false

theorem isEmpty_false_of_ne_nil {α : Type} {p : List α} (hp : p ≠ []) : p.isEmpty = false := by
  cases p with
  | nil => exact absurd rfl hp
  | cons a as => rfl

theorem length_pos_of_ne_nil {p : List Char} (hp : p ≠ []) : 1 ≤ p.length := by
  cases p with
  | nil => exact absurd rfl hp
  | cons a as => simp

theorem leadsWith_length {p : List Char} : ∀ {s : List Char},
    leadsWith p s = true → p.length ≤ s.length := by
  induction p with
  | nil => intro s _; simp
  | cons a as ih =>
    intro s h
    cases s with
    | nil => simp [leadsWith] at h
    | cons b bs =>
      simp only [leadsWith, Bool.and_eq_true] at h
      simpa using ih h.2

theorem leadsWith_self_append (x b : List Char) : leadsWith x (x ++ b) = true := by
  induction x with
  | nil => rfl
  | cons a as ih => simp [leadsWith, ih]

theorem leadsWith_space_head {p : List Char} (hp : p ≠ []) (hns : noSpace p)
    {c : Char} (hc : isPySpace c = true) (t : List Char) :
    leadsWith p (c :: t) = false := by
  cases p with
  | nil => exact absurd rfl hp
  | cons q qs =>
    have hq : isPySpace q = false := hns q (by simp)
    have hqc : (q == c) = false := by
      apply beq_eq_false_iff_ne.mpr
      intro h
      rw [h] at hq
      rw [hq] at hc
      exact Bool.false_ne_true hc
    simp [leadsWith, hqc]

theorem leadsWith_append_space {w : List Char} (hw : allSpace w) :
    ∀ (p t : List Char), noSpace p → leadsWith p (t ++ w) = leadsWith p t := by
  intro p
  induction p with
  | nil => intro t _; rfl
  | cons q qs ih =>
    intro t hns
    cases t with
    | nil =>
      simp only [List.nil_append]
      cases w with
      | nil => rfl
      | cons c w' =>
        have hq : isPySpace q = false := hns q (by simp)
        have hc : isPySpace c = true := hw c (by simp)
        have hqc : (q == c) = false := by
          apply beq_eq_false_iff_ne.mpr
          intro h
          rw [h] at hq
          rw [hq] at hc
          exact Bool.false_ne_true hc
        simp [leadsWith, hqc]
    | cons a t' =>
      have hnsq : noSpace qs := fun c hc => hns c (by simp [hc])
      show (q == a && leadsWith qs (t' ++ w)) = (q == a && leadsWith qs t')
      rw [ih t' hnsq]

theorem removeAllF_fuel (p : List Char) :
    ∀ n m s, s.length ≤ n → s.length ≤ m → removeAllF p n s = removeAllF p m s := by
  intro n
  induction n with
  | zero =>
    intro m s hn _
    have hs : s = [] := by
      cases s with
      | nil => rfl
      | cons c cs => simp at hn
    subst hs
    cases m <;> rfl
  | succ n ih =>
    intro m s hn hm
    cases s with
    | nil => cases m <;> rfl
    | cons c cs =>
      cases m with
      | zero => simp at hm
      | succ m =>
        simp only [removeAllF]
        by_cases hcond : (!p.isEmpty && leadsWith p (c :: cs)) = true
        · rw [if_pos hcond, if_pos hcond]
          have hpne : p ≠ [] := by
            intro h
            subst h
            simp at hcond
          have hplen : 1 ≤ p.length := length_pos_of_ne_nil hpne
          have hdl : (List.drop p.length (c :: cs)).length ≤ cs.length := by
            simp only [List.length_drop, List.length_cons]
            omega
          exact ih m _ (Nat.le_trans hdl (Nat.le_of_succ_le_succ hn))
            (Nat.le_trans hdl (Nat.le_of_succ_le_succ hm))
        · rw [if_neg hcond, if_neg hcond]
          have := ih m cs (Nat.le_of_succ_le_succ hn) (Nat.le_of_succ_le_succ hm)
          rw [this]

theorem removeAll_nil (p : List Char) : removeAll p [] = [] := rfl

theorem removeAll_cons (p : List Char) (c : Char) (cs : List Char) :
    removeAll p (c :: cs) =
      if !p.isEmpty && leadsWith p (c :: cs) then
        removeAll p (List.drop p.length (c :: cs))
      else
        c :: removeAll p cs := by
  show removeAllF p (cs.length + 1) (c :: cs) = _
  simp only [removeAllF]
  by_cases hcond : (!p.isEmpty && leadsWith p (c :: cs)) = true
  · rw [if_pos hcond, if_pos hcond]
    apply removeAllF_fuel
    · have hpne : p ≠ [] := by
        intro h; subst h; simp at hcond
      have := length_pos_of_ne_nil hpne
      simp only [List.length_drop, List.length_cons]
      omega
    · exact Nat.le_refl _
  · rw [if_neg hcond, if_neg hcond]
    rfl

theorem removeAll_space_left {p : List Char} (hp : p ≠ []) (hns : noSpace p) :
    ∀ (w t : List Char), allSpace w → removeAll p (w ++ t) = w ++ removeAll p t := by
  intro w
  induction w with
  | nil => intro t _; rfl
  | cons c w' ih =>
    intro t hw
    have hc : isPySpace c = true := hw c (by simp)
    have hw' : allSpace w' := fun d hd => hw d (by simp [hd])
    rw [List.cons_append, removeAll_cons]
    rw [leadsWith_space_head hp hns hc, Bool.and_false, if_neg (by simp)]
    rw [ih t hw', List.cons_append]

theorem removeAll_space_right_aux {p : List Char} (hp : p ≠ []) (hns : noSpace p)
    {w : List Char} (hw : allSpace w) :
    ∀ n t, t.length ≤ n → removeAll p (t ++ w) = removeAll p t ++ w := by
  intro n
  induction n with
  | zero =>
    intro t ht
    have hs : t = [] := by
      cases t with
      | nil => rfl
      | cons c cs => simp at ht
    subst hs
    have h1 := removeAll_space_left hp hns w [] hw
    rw [List.append_nil, removeAll_nil, List.append_nil] at h1
    rw [List.nil_append, removeAll_nil, List.nil_append]
    exact h1
  | succ n ih =>
    intro t ht
    cases t with
    | nil =>
      have h1 := removeAll_space_left hp hns w [] hw
      rw [List.append_nil, removeAll_nil, List.append_nil] at h1
      rw [List.nil_append, removeAll_nil, List.nil_append]
      exact h1
    | cons c t' =>
      rw [List.cons_append, removeAll_cons, removeAll_cons]
      have hcond : leadsWith p (c :: (t' ++ w)) = leadsWith p (c :: t') := by
        have := leadsWith_append_space hw p (c :: t') hns
        simpa using this
      rw [hcond]
      by_cases hc : (!p.isEmpty && leadsWith p (c :: t')) = true
      · rw [if_pos hc, if_pos hc]
        have hlw : leadsWith p (c :: t') = true := by
          have h2 := hc
          simp only [Bool.and_eq_true] at h2
          exact h2.2
        have hlen : p.length ≤ t'.length + 1 := by
          have := leadsWith_length hlw
          simpa using this
        have hdrop : List.drop p.length (c :: (t' ++ w))
            = List.drop p.length (c :: t') ++ w := by
          rw [show c :: (t' ++ w) = (c :: t') ++ w from rfl]
          rw [List.drop_append_eq_append_drop]
          rw [Nat.sub_eq_zero_of_le (by simpa using hlen), List.drop_zero]
        rw [hdrop]
        apply ih
        have hplen : 1 ≤ p.length := length_pos_of_ne_nil hp
        simp only [List.length_drop, List.length_cons]
        have : t'.length + 1 ≤ n + 1 := ht
        omega
      · rw [if_neg hc, if_neg hc]
        rw [ih t' (Nat.le_of_succ_le_succ ht), List.cons_append]

theorem removeAll_space_right {p : List Char} (hp : p ≠ []) (hns : noSpace p)
    {w : List Char} (hw : allSpace w) (t : List Char) :
    removeAll p (t ++ w) = removeAll p t ++ w :=
  removeAll_space_right_aux hp hns hw t.length t (Nat.le_refl _)

theorem dropWhile_space_append {a : List Char} (ha : allSpace a) (y : List Char) :
    (a ++ y).dropWhile isPySpace = y.dropWhile isPySpace := by
  induction a with
  | nil => rfl
  | cons c a' ih =>
    have hc : isPySpace c = true := ha c (by simp)
    have ha' : allSpace a' := fun d hd => ha d (by simp [hd])
    rw [List.cons_append, List.dropWhile_cons, if_pos hc]
    exact ih ha'

theorem dropWhile_allSpace {w : List Char} (hw : allSpace w) :
    w.dropWhile isPySpace = [] := by
  have := dropWhile_space_append hw []
  simpa using this

theorem dropWhile_append_of_ne_nil {q : Char → Bool} :
    ∀ (x b : List Char), x.dropWhile q ≠ [] →
      (x ++ b).dropWhile q = x.dropWhile q ++ b := by
  intro x
  induction x with
  | nil => intro b h; exact absurd rfl h
  | cons c x' ih =>
    intro b h
    by_cases hc : q c = true
    · rw [List.cons_append, List.dropWhile_cons, if_pos hc,
        List.dropWhile_cons, if_pos hc]
      rw [List.dropWhile_cons, if_pos hc] at h
      exact ih b h
    · rw [List.cons_append, List.dropWhile_cons, if_neg hc,
        List.dropWhile_cons, if_neg hc, List.cons_append]

theorem dropWhile_append_of_nil {q : Char → Bool} :
    ∀ (x b : List Char), x.dropWhile q = [] →
      (x ++ b).dropWhile q = b.dropWhile q := by
  intro x
  induction x with
  | nil => intro b _; rfl
  | cons c x' ih =>
    intro b h
    rw [List.dropWhile_cons] at h
    by_cases hc : q c = true
    · rw [if_pos hc] at h
      rw [List.cons_append, List.dropWhile_cons, if_pos hc]
      exact ih b h
    · rw [if_neg hc] at h
      exact absurd h (by simp)

theorem pyStrip_space_left {a : List Char} (ha : allSpace a) (y : List Char) :
    pyStrip (a ++ y) = pyStrip y := by
  unfold pyStrip
  rw [dropWhile_space_append ha]

theorem allSpace_reverse {b : List Char} (hb : allSpace b) : allSpace b.reverse :=
  fun c hc => hb c (List.mem_reverse.mp hc)

theorem pyStrip_space_right {b : List Char} (hb : allSpace b) (x : List Char) :
    pyStrip (x ++ b) = pyStrip x := by
  by_cases h : x.dropWhile isPySpace = []
  · unfold pyStrip
    rw [dropWhile_append_of_nil x b h, dropWhile_allSpace hb, h]
  · unfold pyStrip
    rw [dropWhile_append_of_ne_nil x b h, List.reverse_append]
    rw [dropWhile_space_append (allSpace_reverse hb)]

theorem mem_takeWhile_sat {q : Char → Bool} :
    ∀ (l : List Char) (c : Char), c ∈ l.takeWhile q → q c = true := by
  intro l
  induction l with
  | nil => intro c hc; simp [List.takeWhile] at hc
  | cons a l' ih =>
    intro c hc
    rw [List.takeWhile_cons] at hc
    by_cases ha : q a = true
    · rw [if_pos ha] at hc
      rcases List.mem_cons.mp hc with h | h
      · rw [h]; exact ha
      · exact ih c h
    · rw [if_neg ha] at hc
      simp at hc

theorem pyStrip_decomp (s : List Char) :
    ∃ a b, allSpace a ∧ allSpace b ∧ s = a ++ pyStrip s ++ b := by
  refine ⟨s.takeWhile isPySpace,
    ((s.dropWhile isPySpace).reverse.takeWhile isPySpace).reverse, ?_, ?_, ?_⟩
  · intro c hc
    exact mem_takeWhile_sat s c hc
  · intro c hc
    rw [List.mem_reverse] at hc
    exact mem_takeWhile_sat _ c hc
  · conv_lhs => rw [← List.takeWhile_append_dropWhile isPySpace s]
    rw [List.append_assoc]
    congr 1
    conv_lhs => rw [← List.reverse_reverse (s.dropWhile isPySpace)]
    conv_lhs =>
      rw [← List.takeWhile_append_dropWhile isPySpace (s.dropWhile isPySpace).reverse]
    rw [List.reverse_append]
    rfl

theorem pyStrip_wrap {a b : List Char} (ha : allSpace a) (hb : allSpace b)
    (x : List Char) : pyStrip (a ++ x ++ b) = pyStrip x := by
  rw [List.append_assoc, pyStrip_space_left ha, pyStrip_space_right hb]

theorem pyStrip_idem (s : List Char) : pyStrip (pyStrip s) = pyStrip s := by
  obtain ⟨a, b, ha, hb, hd⟩ := pyStrip_decomp s
  conv_rhs => rw [hd]
  rw [pyStrip_wrap ha hb]

/-- Stripping before a label deletion does not change the final stripped
result, because the label contains no whitespace character. -/
theorem pyStrip_removeAll_pyStrip {p : List Char} (hp : p ≠ []) (hns : noSpace p)
    (t : List Char) :
    pyStrip (removeAll p (pyStrip t)) = pyStrip (removeAll p t) := by
  obtain ⟨a, b, ha, hb, hd⟩ := pyStrip_decomp t
  conv_rhs => rw [hd]
  rw [List.append_assoc, removeAll_space_left hp hns a _ ha,
    removeAll_space_right hp hns hb, ← List.append_assoc]
  rw [pyStrip_wrap ha hb]

/-! ### Unfolding lemmas for the embedded functions -/

theorem detect_language_raises {detect : Option (List Char) → DetectOutcome}
    {text : Option (List Char)} (h : detect text = DetectOutcome.raises) :
    detect_language detect text = "en".toList := by
  unfold detect_language
  rw [h]

theorem detect_language_ok {detect : Option (List Char) → DetectOutcome}
    {text : Option (List Char)} {code : List Char}
    (h : detect text = DetectOutcome.ok code) :
    detect_language detect text =
      if code = ("en".toList) ∨ code = ("fr".toList) then code
      else "en".toList := by
  unfold detect_language
  rw [h]

theorem generate_prompt_en (q ud : List Char) (opts : Option (List (List Char))) :
    generate_prompt ("en".toList) q ud opts
      = Option.some (enChunk1 ++ q ++ enChunk2
          ++ pyOrDefault opts ("Not provided".toList)
          ++ enChunk3 ++ ud ++ enChunk4) := by
  unfold generate_prompt
  rw [if_pos rfl]

theorem generate_prompt_fr (q ud : List Char) (opts : Option (List (List Char))) :
    generate_prompt ("fr".toList) q ud opts
      = Option.some (frChunk1 ++ q ++ frChunk2
          ++ pyOrDefault opts ("Non fourni".toList)
          ++ frChunk3 ++ ud ++ frChunk4) := by
  unfold generate_prompt
  rw [if_neg (by decide), if_pos rfl]

/-- On an action path that reaches the model call, the orchestration result
is exactly the result of the invoke-and-clean step. -/
theorem integrate_reaches_invoke (detect : Option (List Char) → DetectOutcome)
    (inv : InvokeOutcome) (action : List Char) (question : Option (List Char))
    (user_data : List Char) (options : Option (List (List Char)))
    (feedback previous_response : Option (List Char))
    (hact : action = ("generate".toList)
      ∨ (action = ("regenerate".toList) ∧ truthy feedback = true
          ∧ truthy previous_response = true)) :
    integrate_document_content_with_grant_writing detect inv action question
        user_data options feedback previous_response
      = invokeAndClean inv := by
  rcases hact with ha | ⟨ha, hf, hp⟩
  · simp only [integrate_document_content_with_grant_writing]
    rw [if_pos ha]
  · have hne : action ≠ ("generate".toList) := by
      rw [ha]
      decide
    simp only [integrate_document_content_with_grant_writing]
    rw [if_neg hne, if_pos ⟨ha, hf, hp⟩]

/-! ### Claim theorems -/

/-- C1: for every input string, `clean_response` equals the reference
definition transcribed from the spec (split on the first newline keeping the
text after it, else the whole text stripped; delete `"Response:"` then
`"**Response**:"`, stripping after each deletion), and the result carries no
leading or trailing whitespace. -/
theorem clean_response_matches_spec (s : List Char) :
    clean_response s = clean_response_spec s
      ∧ pyStrip (clean_response s) = clean_response s := by
  constructor
  · unfold clean_response clean_response_spec
    cases hnl : afterFirstNl s with
    | none => rfl
    | some rest =>
      simp only []
      rw [@pyStrip_removeAll_pyStrip ("Response:".toList) (by decide) (by decide) rest]
  · unfold clean_response
    cases afterFirstNl s <;> exact pyStrip_idem _

/-- C2: `detect_language` returns `"en"` whenever the detector raises or
returns a code other than `"en"`/`"fr"`, and returns the detected code
unchanged when it is `"en"` or `"fr"`.  It never raises: `detect_language` is
a total function. -/
theorem detect_language_fallback (detect : Option (List Char) → DetectOutcome)
    (text : Option (List Char)) (code : List Char) :
    (detect text = DetectOutcome.raises → detect_language detect text = "en".toList)
    ∧ (detect text = DetectOutcome.ok code → code ≠ ("en".toList) →
        code ≠ ("fr".toList) → detect_language detect text = "en".toList)
    ∧ (detect text = DetectOutcome.ok ("en".toList) →
        detect_language detect text = "en".toList)
    ∧ (detect text = DetectOutcome.ok ("fr".toList) →
        detect_language detect text = "fr".toList) := by
  refine ⟨?_, ?_, ?_, ?_⟩
  · intro h
    exact detect_language_raises h
  · intro h hne hnf
    rw [detect_language_ok h, if_neg]
    rintro (h1 | h1)
    · exact hne h1
    · exact hnf h1
  · intro h
    rw [detect_language_ok h, if_pos (Or.inl rfl)]
  · intro h
    rw [detect_language_ok h, if_pos (Or.inr rfl)]

/-- Witness for C2: a detector that reports German is overridden to
English. -/
theorem detect_language_fallback_witness :
    detect_language (fun _ => DetectOutcome.ok ("de".toList)) Option.none
      = "en".toList :=
  (detect_language_fallback (fun _ => DetectOutcome.ok ("de".toList)) Option.none
    ("de".toList)).2.1 rfl (by decide) (by decide)

/-- C4: whenever the action is not `"generate"` and is not a `"regenerate"`
accompanied by truthy `feedback` and truthy `previous_response` (in
particular `"regenerate"` with feedback but no previous response, or with no
feedback), the orchestration returns the fixed invalid-action message and the
inference client is not invoked. -/
theorem integrate_invalid_action (detect : Option (List Char) → DetectOutcome)
    (inv : InvokeOutcome) (action : List Char) (question : Option (List Char))
    (user_data : List Char) (options : Option (List (List Char)))
    (feedback previous_response : Option (List Char))
    (h1 : action ≠ ("generate".toList))
    (h2 : action ≠ ("regenerate".toList) ∨ truthy feedback = false
      ∨ truthy previous_response = false) :
    integrate_document_content_with_grant_writing detect inv action question
        user_data options feedback previous_response
      = OrchOutput.mk (PyRet.str invalidActionMsg) false Option.none := by
  have hc : ¬(action = ("regenerate".toList) ∧ truthy feedback = true
      ∧ truthy previous_response = true) := by
    rintro ⟨ha, hf, hp⟩
    rcases h2 with h | h | h
    · exact h ha
    · rw [hf] at h
      exact Bool.noConfusion h
    · rw [hp] at h
      exact Bool.noConfusion h
  simp only [integrate_document_content_with_grant_writing]
  rw [if_neg h1, if_neg hc]

/-- Witness for C4: `regenerate` with feedback but no previous response. -/
theorem integrate_invalid_action_witness :
    integrate_document_content_with_grant_writing (fun _ => DetectOutcome.raises)
        (InvokeOutcome.ok ("x".toList)) ("regenerate".toList) Option.none
        ("null".toList) Option.none (Option.some ("fix it".toList)) Option.none
      = OrchOutput.mk (PyRet.str invalidActionMsg) false Option.none :=
  integrate_invalid_action _ _ _ _ _ _ _ _ (by decide)
    (Or.inr (Or.inr (by decide)))

/-- C8: on a path that reaches the model invocation, a `ClientError` outcome
makes the orchestration log the upstream message and return `None`, and any
other exception during the invoke-and-clean step also yields `None`. -/
theorem integrate_inference_failure (detect : Option (List Char) → DetectOutcome)
    (action : List Char) (question : Option (List Char)) (user_data : List Char)
    (options : Option (List (List Char)))
    (feedback previous_response : Option (List Char)) (m e : List Char)
    (hact : action = ("generate".toList)
      ∨ (action = ("regenerate".toList) ∧ truthy feedback = true
          ∧ truthy previous_response = true)) :
    integrate_document_content_with_grant_writing detect
        (InvokeOutcome.clientError m) action question user_data options feedback
        previous_response
      = OrchOutput.mk PyRet.none true
          (Option.some (("A client error occurred: ".toList) ++ m))
    ∧ integrate_document_content_with_grant_writing detect
        (InvokeOutcome.raises e) action question user_data options feedback
        previous_response
      = OrchOutput.mk PyRet.none true
          (Option.some (("Unexpected error: ".toList) ++ e)) := by
  constructor <;>
    (rw [integrate_reaches_invoke _ _ _ _ _ _ _ _ hact]
     rfl)

/-- Witness for C8: the generate path with a client error and with an
unexpected exception. -/
theorem integrate_inference_failure_witness :
    integrate_document_content_with_grant_writing (fun _ => DetectOutcome.raises)
        (InvokeOutcome.clientError ("throttled".toList)) ("generate".toList)
        (Option.some ("Q".toList)) ("null".toList) Option.none Option.none
        Option.none
      = OrchOutput.mk PyRet.none true
          (Option.some (("A client error occurred: ".toList) ++ ("throttled".toList)))
    ∧ integrate_document_content_with_grant_writing (fun _ => DetectOutcome.raises)
        (InvokeOutcome.raises ("boom".toList)) ("generate".toList)
        (Option.some ("Q".toList)) ("null".toList) Option.none Option.none
        Option.none
      = OrchOutput.mk PyRet.none true
          (Option.some (("Unexpected error: ".toList) ++ ("boom".toList))) :=
  integrate_inference_failure _ _ _ _ _ _ _ _ _ (Or.inl rfl)

/-- C9: the language computed by `detect_language` — the value the
orchestration hands to the prompt builder — is always `"en"` or `"fr"`, so
`generate_prompt` applied to it always produces a template (its
other-language branch, which returns `None`, is unreachable from the
orchestration). -/
theorem language_always_supported (detect : Option (List Char) → DetectOutcome)
    (text : Option (List Char)) (q ud : List Char)
    (opts : Option (List (List Char))) :
    (detect_language detect text = "en".toList
      ∨ detect_language detect text = "fr".toList)
    ∧ (generate_prompt (detect_language detect text) q ud opts).isSome = true := by
  have h : detect_language detect text = "en".toList
      ∨ detect_language detect text = "fr".toList := by
    cases hdt : detect text with
    | raises => exact Or.inl (detect_language_raises hdt)
    | ok code =>
      by_cases hc : code = ("en".toList) ∨ code = ("fr".toList)
      · rw [detect_language_ok hdt, if_pos hc]
        exact hc
      · rw [detect_language_ok hdt, if_neg hc]
        exact Or.inl rfl
  refine ⟨h, ?_⟩
  rcases h with h | h <;> rw [h]
  · rw [generate_prompt_en]
    rfl
  · rw [generate_prompt_fr]
    rfl

/-- C3 counterexample: on an event with no `question` field (and no `action`,
so it defaults to `"generate"`), `lambda_handler` does NOT return a 400
envelope and DOES reach the inference client: it returns statusCode 200 with
the invocation flag set.  (`detect` raising models `langdetect.detect(None)`
raising, which `detect_language` swallows.) -/
theorem lambda_handler_missing_question_cex :
    (lambda_handler (fun _ => DetectOutcome.raises) (InvokeOutcome.ok ("ans".toList))
        (RawEvent.mk Option.none
          (Event.mk Option.none Option.none ("null".toList) Option.none
            Option.none Option.none))).map
      (fun r => (r.1.statusCode, r.2)) = Except.ok (200, true) := by rfl

/-- C3 amended: for every event whose body is not invalid JSON, whose
question is missing, and whose action is absent (defaulting to `"generate"`)
or `"generate"`, `lambda_handler` still returns a statusCode-200 envelope and
the inference client IS invoked; no user-data fetch exists in the handler at
all. -/
theorem lambda_handler_missing_question
    (detect : Option (List Char) → DetectOutcome) (inv : InvokeOutcome)
    (ev : RawEvent) (hb : ev.body ≠ Option.some BodyField.invalid)
    (hq : (eventUsed ev).question = Option.none)
    (ha : (eventUsed ev).action = Option.none
      ∨ (eventUsed ev).action = Option.some ("generate".toList)) :
    ∃ r, lambda_handler detect inv ev = Except.ok r
      ∧ r.1.statusCode = 200 ∧ r.2 = true := by
  have hcore : ∀ e : Event,
      (e.action = Option.none ∨ e.action = Option.some ("generate".toList)) →
      (handlerCore detect inv e).1.statusCode = 200
        ∧ (handlerCore detect inv e).2 = true := by
    intro e hae
    have hact : e.action.getD ("generate".toList) = "generate".toList := by
      rcases hae with h | h <;> rw [h] <;> rfl
    refine ⟨rfl, ?_⟩
    show (integrate_document_content_with_grant_writing detect inv
      (e.action.getD ("generate".toList)) e.question e.user_data e.options
      e.feedback e.previous_response).invokedModel = true
    rw [integrate_reaches_invoke _ _ _ _ _ _ _ _ (Or.inl hact)]
    cases inv <;> rfl
  obtain ⟨b, flds⟩ := ev
  cases b with
  | none => exact ⟨handlerCore detect inv flds, rfl, hcore flds ha⟩
  | some bf =>
    cases bf with
    | falsy => exact ⟨handlerCore detect inv flds, rfl, hcore flds ha⟩
    | valid e => exact ⟨handlerCore detect inv e, rfl, hcore e ha⟩
    | invalid => exact absurd rfl hb

/-- Witness for C3 (amended): a concrete event with no question and no
action. -/
theorem lambda_handler_missing_question_witness :
    ∃ r, lambda_handler (fun _ => DetectOutcome.raises)
        (InvokeOutcome.ok ("ans".toList))
        (RawEvent.mk (Option.some BodyField.falsy)
          (Event.mk Option.none Option.none ("null".toList) Option.none
            Option.none Option.none))
      = Except.ok r ∧ r.1.statusCode = 200 ∧ r.2 = true :=
  lambda_handler_missing_question _ _ _ (by decide) rfl (Or.inl rfl)

/-- C7 counterexample: an event whose truthy `body` is not valid JSON makes
`json.loads` raise inside `lambda_handler` with no surrounding handler: the
exception propagates past the Request Handler. -/
theorem lambda_handler_body_raises_cex :
    lambda_handler (fun _ => DetectOutcome.ok ("en".toList))
        (InvokeOutcome.ok ("x".toList))
        (RawEvent.mk (Option.some BodyField.invalid)
          (Event.mk Option.none Option.none ("null".toList) Option.none
            Option.none Option.none))
      = Except.error () := rfl

/-- C7 amended: every failure of the invoke-and-clean step is caught inside
the orchestration, and for every event whose `body` is absent, falsy, or
valid JSON, `lambda_handler` returns a response envelope (statusCode 200) for
every detector and inference outcome — but an event with a truthy body that
is not valid JSON makes the handler itself raise. -/
theorem lambda_handler_envelope (detect : Option (List Char) → DetectOutcome)
    (inv : InvokeOutcome) (ev : RawEvent)
    (hb : ev.body ≠ Option.some BodyField.invalid) :
    ∃ r, lambda_handler detect inv ev = Except.ok r ∧ r.1.statusCode = 200 := by
  obtain ⟨b, flds⟩ := ev
  cases b with
  | none => exact ⟨handlerCore detect inv flds, rfl, rfl⟩
  | some bf =>
    cases bf with
    | falsy => exact ⟨handlerCore detect inv flds, rfl, rfl⟩
    | valid e => exact ⟨handlerCore detect inv e, rfl, rfl⟩
    | invalid => exact absurd rfl hb

/-- Witness for C7 (amended): a concrete no-body event yields an envelope for
a raising detector and a failing inference call. -/
theorem lambda_handler_envelope_witness :
    ∃ r, lambda_handler (fun _ => DetectOutcome.raises)
        (InvokeOutcome.raises ("boom".toList))
        (RawEvent.mk Option.none
          (Event.mk Option.none (Option.some ("Q".toList)) ("null".toList)
            Option.none Option.none Option.none))
      = Except.ok r ∧ r.1.statusCode = 200 :=
  lambda_handler_envelope _ _ _ (by decide)

/-- C10: every envelope `lambda_handler` returns has statusCode 200, and its
body is the `json.dumps` rendering of whatever the orchestration returned —
including the invalid-action message and the `None` failure result, which
therefore travel inside a 200 envelope rather than a 400/500. -/
theorem lambda_handler_always_200 (detect : Option (List Char) → DetectOutcome)
    (inv : InvokeOutcome) (ev : RawEvent) (r : Response × Bool)
    (h : lambda_handler detect inv ev = Except.ok r) :
    r.1.statusCode = 200
    ∧ r.1.body = pyDumpsRet (integrate_document_content_with_grant_writing
        detect inv ((eventUsed ev).action.getD ("generate".toList))
        (eventUsed ev).question (eventUsed ev).user_data (eventUsed ev).options
        (eventUsed ev).feedback (eventUsed ev).previous_response).ret := by
  obtain ⟨b, flds⟩ := ev
  cases b with
  | none =>
    injection h with h'
    subst h'
    exact ⟨rfl, rfl⟩
  | some bf =>
    cases bf with
    | falsy =>
      injection h with h'
      subst h'
      exact ⟨rfl, rfl⟩
    | valid e =>
      injection h with h'
      subst h'
      exact ⟨rfl, rfl⟩
    | invalid => exact Except.noConfusion h

/-- Witness for C10: a concrete event whose orchestration fails with a
client error still comes back as a 200 envelope with body `null`. -/
theorem lambda_handler_always_200_witness :
    (Response.mk 200 ("null".toList), true).1.statusCode = 200
    ∧ (Response.mk 200 ("null".toList), true).1.body
      = pyDumpsRet (integrate_document_content_with_grant_writing
          (fun _ => DetectOutcome.raises)
          (InvokeOutcome.clientError ("boom".toList))
          ((eventUsed (RawEvent.mk Option.none
            (Event.mk Option.none Option.none ("null".toList) Option.none
              Option.none Option.none))).action.getD ("generate".toList))
          (eventUsed (RawEvent.mk Option.none
            (Event.mk Option.none Option.none ("null".toList) Option.none
              Option.none Option.none))).question
          (eventUsed (RawEvent.mk Option.none
            (Event.mk Option.none Option.none ("null".toList) Option.none
              Option.none Option.none))).user_data
          (eventUsed (RawEvent.mk Option.none
            (Event.mk Option.none Option.none ("null".toList) Option.none
              Option.none Option.none))).options
          (eventUsed (RawEvent.mk Option.none
            (Event.mk Option.none Option.none ("null".toList) Option.none
              Option.none Option.none))).feedback
          (eventUsed (RawEvent.mk Option.none
            (Event.mk Option.none Option.none ("null".toList) Option.none
              Option.none Option.none))).previous_response).ret :=
  lambda_handler_always_200 (fun _ => DetectOutcome.raises)
    (InvokeOutcome.clientError ("boom".toList))
    (RawEvent.mk Option.none
      (Event.mk Option.none Option.none ("null".toList) Option.none
        Option.none Option.none))
    (Response.mk 200 ("null".toList), true) rfl

theorem containsSub_middle : ∀ (a x b : List Char), containsSub x (a ++ x ++ b) = true := by
  intro a x b
  induction a with
  | nil =>
    rw [List.nil_append]
    cases hx : x ++ b with
    | nil =>
      obtain ⟨hx1, hx2⟩ := List.append_eq_nil.mp hx
      subst hx1
      subst hx2
      rfl
    | cons c t =>
      have h := leadsWith_self_append x b
      rw [hx] at h
      simp [containsSub, h]
  | cons c a' ih =>
    show (leadsWith x (c :: (a' ++ x ++ b)) || containsSub x (a' ++ x ++ b)) = true
    rw [ih]
    simp

set_option maxRecDepth 100000 in
/-- C5 counterexample: a supplied but empty options list does NOT get
embedded (its Python rendering `[]` appears nowhere in the prompt); the
placeholder is used instead, although options were supplied. -/
theorem generate_prompt_empty_options_cex :
    containsSub (pyStrOfList [])
        ((generate_prompt ("en".toList) ("Q".toList) ("null".toList)
          (Option.some [])).getD []) = false
    ∧ containsSub ("Not provided".toList)
        ((generate_prompt ("en".toList) ("Q".toList) ("null".toList)
          (Option.some [])).getD []) = true := by
  constructor <;> decide

/-- C5 amended: for every supplied options value that is truthy (a non-empty
list), both the English and the French template embed Python's rendering of
the options list — elements verbatim, in their given order — and when
options are absent OR supplied empty (falsy), the English template embeds
"Not provided" and the French template embeds "Non fourni". -/
theorem generate_prompt_options_localized (q ud : List Char)
    (opts : List (List Char)) (h : opts ≠ []) :
    containsSub (pyStrOfList opts)
        ((generate_prompt ("en".toList) q ud (Option.some opts)).getD []) = true
    ∧ containsSub (pyStrOfList opts)
        ((generate_prompt ("fr".toList) q ud (Option.some opts)).getD []) = true
    ∧ containsSub ("Not provided".toList)
        ((generate_prompt ("en".toList) q ud Option.none).getD []) = true
    ∧ containsSub ("Non fourni".toList)
        ((generate_prompt ("fr".toList) q ud Option.none).getD []) = true
    ∧ containsSub ("Not provided".toList)
        ((generate_prompt ("en".toList) q ud (Option.some [])).getD []) = true
    ∧ containsSub ("Non fourni".toList)
        ((generate_prompt ("fr".toList) q ud (Option.some [])).getD []) = true := by
  have hopt : ∀ ph : List Char,
      pyOrDefault (Option.some opts) ph = pyStrOfList opts := by
    intro ph
    show (if opts.isEmpty = true then ph else pyStrOfList opts) = pyStrOfList opts
    rw [if_neg]
    rw [isEmpty_false_of_ne_nil h]
    exact fun hh => Bool.noConfusion hh
  refine ⟨?_, ?_, ?_, ?_, ?_, ?_⟩
  · rw [generate_prompt_en, Option.getD_some, hopt]
    rw [show enChunk1 ++ q ++ enChunk2 ++ pyStrOfList opts ++ enChunk3 ++ ud ++ enChunk4
        = (enChunk1 ++ q ++ enChunk2) ++ pyStrOfList opts
          ++ (enChunk3 ++ ud ++ enChunk4) by simp [List.append_assoc]]
    exact containsSub_middle _ _ _
  · rw [generate_prompt_fr, Option.getD_some, hopt]
    rw [show frChunk1 ++ q ++ frChunk2 ++ pyStrOfList opts ++ frChunk3 ++ ud ++ frChunk4
        = (frChunk1 ++ q ++ frChunk2) ++ pyStrOfList opts
          ++ (frChunk3 ++ ud ++ frChunk4) by simp [List.append_assoc]]
    exact containsSub_middle _ _ _
  · rw [generate_prompt_en, Option.getD_some]
    rw [show pyOrDefault Option.none ("Not provided".toList)
        = ("Not provided".toList) from rfl]
    rw [show enChunk1 ++ q ++ enChunk2 ++ ("Not provided".toList) ++ enChunk3 ++ ud ++ enChunk4
        = (enChunk1 ++ q ++ enChunk2) ++ ("Not provided".toList)
          ++ (enChunk3 ++ ud ++ enChunk4) by simp [List.append_assoc]]
    exact containsSub_middle _ _ _
  · rw [generate_prompt_fr, Option.getD_some]
    rw [show pyOrDefault Option.none ("Non fourni".toList)
        = ("Non fourni".toList) from rfl]
    rw [show frChunk1 ++ q ++ frChunk2 ++ ("Non fourni".toList) ++ frChunk3 ++ ud ++ frChunk4
        = (frChunk1 ++ q ++ frChunk2) ++ ("Non fourni".toList)
          ++ (frChunk3 ++ ud ++ frChunk4) by simp [List.append_assoc]]
    exact containsSub_middle _ _ _
  · rw [generate_prompt_en, Option.getD_some]
    rw [show pyOrDefault (Option.some []) ("Not provided".toList)
        = ("Not provided".toList) from rfl]
    rw [show enChunk1 ++ q ++ enChunk2 ++ ("Not provided".toList) ++ enChunk3 ++ ud ++ enChunk4
        = (enChunk1 ++ q ++ enChunk2) ++ ("Not provided".toList)
          ++ (enChunk3 ++ ud ++ enChunk4) by simp [List.append_assoc]]
    exact containsSub_middle _ _ _
  · rw [generate_prompt_fr, Option.getD_some]
    rw [show pyOrDefault (Option.some []) ("Non fourni".toList)
        = ("Non fourni".toList) from rfl]
    rw [show frChunk1 ++ q ++ frChunk2 ++ ("Non fourni".toList) ++ frChunk3 ++ ud ++ frChunk4
        = (frChunk1 ++ q ++ frChunk2) ++ ("Non fourni".toList)
          ++ (frChunk3 ++ ud ++ frChunk4) by simp [List.append_assoc]]
    exact containsSub_middle _ _ _

/-- Witness for C5 (amended): a concrete two-element options list is embedded
verbatim in the English prompt. -/
theorem generate_prompt_options_localized_witness :
    containsSub (pyStrOfList [("2021".toList), ("2022".toList)])
        ((generate_prompt ("en".toList) ("Q".toList) ("null".toList)
          (Option.some [("2021".toList), ("2022".toList)])).getD []) = true :=
  (generate_prompt_options_localized ("Q".toList) ("null".toList)
    [("2021".toList), ("2022".toList)] (by decide)).1

/-- C6: `clean_response "Response:\n**Response**: Final answer."` is exactly
`"Final answer."`: the first-line drop removes the echoed `Response:` line and
the `**Response**:` label deletion leaves only the final text. -/
theorem clean_response_double_label :
    clean_response ("Response:\n**Response**: Final answer.".toList)
      = "Final answer.".toList := by decide
